import Mathlib

/-!
Shallow embedding of tcomb-graphql (src/unnamed/part_000): the tcomb-to-GraphQL
type transformer, the declaration builders (type, input, fn, arg) and the
schema assembler class.

Modelling conventions:
- tcomb type declarations become the inductive Decl; the dynamic Proxy wrapper
  created by proxy(Type, props) becomes the proxyD constructor, which shares
  the underlying declaration (all meta and gql accesses delegate to it, since
  those keys are never among the proxy's own property keys) while carrying the
  proxy's own annotation properties.
- GraphQL type objects become the inductive GType.  Named types built with a
  JavaScript new-expression (object, interface, input object, union, enum)
  carry an allocation id drawn from a counter in the threaded state, so that
  JavaScript object identity is expressible: two separate allocations always
  get distinct ids, and returning a cached object returns the same id.
- The memo slot type.gql that the source stashes on each declaration object is
  modelled as an explicit association list from declaration identity (the id
  field of struct, interface and enum declarations, shared by their proxies)
  to the built GType, threaded through every call.
- JavaScript undefined is a first-class value of the dynamic language, so the
  result of looking up a missing type-map entry is modelled by the GType
  constructor undefined; a thrown TypeError is an Except error.
- Recursive calls are fuelled: transform n runs the one-step transformer with
  transform (n - 1) as the recursive reference.  Fuel exhaustion yields a
  distinguished error that the source cannot produce; every theorem quantifies
  over or instantiates sufficient fuel.
- External collaborators (the graphql execution engine, printSchema,
  graphql-tools resolver binding, graphql-shield rule evaluation) are out of
  scope; toGraphQL records the data handed to them (the resolver table, the
  permission table and the fixed fallback message) on the schema object.
-/

/-- JavaScript primitive values as they occur in declaration metadata:
default values and enum map values are carried verbatim by the transformer. -/
inductive JsVal where
  | null
  | undefined
  | num (n : Int)
  | str (s : String)
  | bool (b : Bool)
deriving DecidableEq, Repr

mutual
/-- A tcomb type declaration.  The id on enum, struct and interface
declarations stands for the identity of the underlying JavaScript object: it
keys the gql memo slot.  Unnamed declarations carry none for their name, as
tcomb leaves meta.name undefined when no name argument is given. -/
inductive Decl where
  | irr (name : String)
  | enumD (id : Nat) (name : Option String) (map : List (String × JsVal))
  | listD (name : Option String) (elem : Decl)
  | maybeD (name : Option String) (inner : Decl)
  | structD (id : Nat) (name : Option String) (props : List (String × Decl))
  | interD (id : Nat) (name : Option String) (props : List (String × Decl))
  | unionD (name : Option String) (types : List Decl)
  | proxyD (base : Decl) (props : PProps)

/-- The own properties of a proxy created by proxy(Type, props).  The outer
Option marks whether the property key is present on the proxy (a present key
shadows the underlying declaration even when its value is undefined, because
the proxy's get trap answers from its own keys first); the inner layer is the
JavaScript value, which may itself be null or undefined. -/
inductive PProps where
  | mk (typeDesc : Option (Option String)) (desc : Option (Option String))
       (val : Option JsVal) (args : Option FnArgs)
       (publishType : Option (Option Decl)) (input : Option Bool)
       (interfaces : Option (List Decl))

/-- The args parameter of fn: either a tcomb declaration or a plain object
mapping argument names to declarations. -/
inductive FnArgs where
  | decl (d : Decl)
  | mapping (m : List (String × Decl))
end

namespace Decl

/-- type.meta.name, delegated through proxies. -/
def metaName : Decl → Option String
  | .irr nm => some nm
  | .enumD _ nm _ => nm
  | .listD nm _ => nm
  | .maybeD nm _ => nm
  | .structD _ nm _ => nm
  | .interD _ nm _ => nm
  | .unionD nm _ => nm
  | .proxyD b _ => b.metaName

/-- type.meta.kind, delegated through proxies. -/
def metaKind : Decl → String
  | .irr _ => "irreducible"
  | .enumD _ _ _ => "enums"
  | .listD _ _ => "list"
  | .maybeD _ _ => "maybe"
  | .structD _ _ _ => "struct"
  | .interD _ _ _ => "interface"
  | .unionD _ _ => "union"
  | .proxyD b _ => b.metaKind

/-- type.meta.type: the element of a list or the wrapped type of a maybe. -/
def metaType : Decl → Option Decl
  | .listD _ e => some e
  | .maybeD _ i => some i
  | .proxyD b _ => b.metaType
  | _ => none

/-- type.meta.props of a struct or interface declaration. -/
def metaProps : Decl → Option (List (String × Decl))
  | .structD _ _ ps => some ps
  | .interD _ _ ps => some ps
  | .proxyD b _ => b.metaProps
  | _ => none

/-- type.meta.types of a union declaration. -/
def metaTypes : Decl → Option (List Decl)
  | .unionD _ ts => some ts
  | .proxyD b _ => b.metaTypes
  | _ => none

/-- type.meta.map of an enums declaration. -/
def metaMap : Decl → Option (List (String × JsVal))
  | .enumD _ _ m => some m
  | .proxyD b _ => b.metaMap
  | _ => none

/-- t.getTypeName(type): the displayName property, delegated through proxies.
tcomb generates a structural default display name for unnamed declarations;
that generation belongs to the external type-description library, so it is
modelled by a constant per kind (every declaration this system builds a named
GraphQL type from carries an explicit name). -/
def displayName : Decl → String
  | .irr nm => nm
  | .enumD _ nm _ => match nm with | some x => x | none => "Enums"
  | .listD nm _ => match nm with | some x => x | none => "Array"
  | .maybeD nm _ => match nm with | some x => x | none => "Maybe"
  | .structD _ nm _ => match nm with | some x => x | none => "Struct"
  | .interD _ nm _ => match nm with | some x => x | none => "Interface"
  | .unionD nm _ => match nm with | some x => x | none => "Union"
  | .proxyD b _ => b.displayName

/-- The identity keying the gql memo slot.  A proxy's gql reads and writes
fall through to the underlying declaration (gql is never among the proxy's own
keys), so a proxy shares the slot of its base. -/
def cacheId : Decl → Option Nat
  | .enumD i _ _ => some i
  | .structD i _ _ => some i
  | .interD i _ _ => some i
  | .proxyD b _ => b.cacheId
  | _ => none

/-- type.__typeDesc: a present key answers from the proxy itself, otherwise
the read delegates to the underlying declaration. -/
def getTypeDesc : Decl → Option String
  | .proxyD b (.mk td _ _ _ _ _ _) =>
    match td with
    | some v => v
    | none => b.getTypeDesc
  | _ => none

/-- type.__desc, with the same presence-shadowing rule. -/
def getDesc : Decl → Option String
  | .proxyD b (.mk _ ds _ _ _ _ _) =>
    match ds with
    | some v => v
    | none => b.getDesc
  | _ => none

/-- type.__val: the default value; undefined on plain declarations. -/
def getVal : Decl → JsVal
  | .proxyD b (.mk _ _ v _ _ _ _) =>
    match v with
    | some x => x
    | none => b.getVal
  | _ => .undefined

/-- type.__args: the argument mapping attached by fn. -/
def getArgs : Decl → Option FnArgs
  | .proxyD b (.mk _ _ _ a _ _ _) =>
    match a with
    | some x => some x
    | none => b.getArgs
  | _ => none

/-- type.__publishType under the truthiness test of addMutations: none stands
for an absent, undefined or null publish type. -/
def getPublishType : Decl → Option Decl
  | .proxyD b (.mk _ _ _ _ pt _ _) =>
    match pt with
    | some v => v
    | none => b.getPublishType
  | _ => none

/-- type.__input under the truthiness test of the struct builder. -/
def getInput : Decl → Bool
  | .proxyD b (.mk _ _ _ _ _ inp _) =>
    match inp with
    | some v => v
    | none => b.getInput
  | _ => false

/-- type.interfaces: the declared interface list attached by the type builder
(an empty array is a present, truthy value, distinct from an absent key). -/
def getInterfaces : Decl → Option (List Decl)
  | .proxyD b (.mk _ _ _ _ _ _ ifs) =>
    match ifs with
    | some v => some v
    | none => b.getInterfaces
  | _ => none

end Decl

/-- The kind of named GraphQL object type a declaration builds:
GraphQLObjectType, GraphQLInputObjectType or GraphQLInterfaceType. -/
inductive ObjKind where
  | object
  | inputObject
  | interface
deriving DecidableEq, Repr

mutual
/-- GraphQL type objects as the transformer produces them.  The id on enum,
object and union types is the allocation id of the JavaScript new-expression
that's built them, so equality of GType values coincides with object identity.
maybeMarker is the transient wrapper returned by the maybe rule, and undefined is
the JavaScript undefined value that a failed type-map lookup produces. -/
inductive GType where
  | scalarBoolean
  | scalarDate
  | scalarID
  | scalarInt
  | scalarFloat
  | scalarString
  | enumT (id : Nat) (name : String) (values : List (String × JsVal))
  | listT (ofType : GType)
  | nonNull (ofType : GType)
  | maybeMarker (ofType : GType)
  | objectT (id : Nat) (kind : ObjKind) (name : String)
            (description : Option String) (interfaces : Option (List GType))
            (fields : List (String × GField))
  | unionT (id : Nat) (name : String) (description : Option String)
           (types : List GType)
  | undefined

/-- One field of a built object type, as assembled by the object builder. -/
inductive GField where
  | mk (type : GType) (defaultValue : JsVal) (description : Option String)
       (args : Option (List (String × GArg)))

/-- One argument of a parameterized field. -/
inductive GArg where
  | mk (type : GType) (defaultValue : JsVal) (description : Option String)
end

namespace GField

def ftype : GField → GType
  | .mk t _ _ _ => t

def fdefault : GField → JsVal
  | .mk _ v _ _ => v

def fdesc : GField → Option String
  | .mk _ _ d _ => d

def fargs : GField → Option (List (String × GArg))
  | .mk _ _ _ a => a

end GField

namespace GArg

def atype : GArg → GType
  | .mk t _ _ => t

def adefault : GArg → JsVal
  | .mk _ v _ => v

def adesc : GArg → Option String
  | .mk _ _ d => d

end GArg

/-- The threaded transformer state: the per-declaration gql memo slots and the
allocation counter for JavaScript new-expressions. -/
structure TState where
  cache : List (Nat × GType)
  counter : Nat

/-- The result of a transformer step: a thrown error or a value with the
updated state. -/
abbrev Res (a : Type) := Except String (a × TState)

/-- The error message standing for a thrown TypeError (reading a property of
undefined, or iterating entries of undefined). -/
def jsTypeError : String := "TypeError"

/-- The fuel-exhaustion marker; the JavaScript source has no counterpart, so
no theorem equates a result with this error. -/
def fuelOut : String := "insufficient fuel"

/-- Read the gql slot of a declaration identity. -/
def cacheLookup (c : List (Nat × GType)) (cid : Nat) : Option GType :=
  match c with
  | [] => none
  | (k, g) :: rest => if k = cid then some g else cacheLookup rest cid

/-- Write the gql slot of a declaration identity (type.gql = g).  A fresh
binding shadows any stale one, like assignment to the property does. -/
def cacheInsert (cid : Option Nat) (g : GType) (c : List (Nat × GType)) :
    List (Nat × GType) :=
  match cid with
  | some i => (i, g) :: c
  | none => c

/-- An entry of the extensible type map: either a pre-built GraphQL type
(typeof x is not function, passed through unchanged) or one of the
transformation functions registered under a structural kind key. -/
inductive BTag where
  | enums
  | inter
  | list
  | maybe
  | struct
  | union
deriving DecidableEq, Repr

inductive TypeMapEntry where
  | const (g : GType)
  | builder (b : BTag)

/-- The type map as shipped: tcomb scalar names map to pre-built GraphQL
scalars (GraphQLDate comes from graphql-iso-date), structural kinds map to
transformation functions.  Applications may register custom scalars; the
claims concern the shipped map, so it is fixed here. -/
def typeMap : String → Option TypeMapEntry
  | "Boolean" => some (.const .scalarBoolean)
  | "Date" => some (.const .scalarDate)
  | "ID" => some (.const .scalarID)
  | "Integer" => some (.const .scalarInt)
  | "Number" => some (.const .scalarFloat)
  | "String" => some (.const .scalarString)
  | "enums" => some (.builder .enums)
  | "interface" => some (.builder .inter)
  | "list" => some (.builder .list)
  | "maybe" => some (.builder .maybe)
  | "struct" => some (.builder .struct)
  | "union" => some (.builder .union)
  | _ => none

/-- typeMap[type.meta.name] || typeMap[type.meta.kind]: the name lookup takes
priority; an undefined name indexes no entry and falls through to the kind. -/
def lookupTypeMap (d : Decl) : Option TypeMapEntry :=
  match d.metaName with
  | some nm =>
    match typeMap nm with
    | some e => some e
    | none => typeMap d.metaKind
  | none => typeMap d.metaKind

/-- JavaScript a || b on description values: a non-empty string is truthy. -/
def truthyStr : Option String → Bool
  | some s => !s.isEmpty
  | none => false

def jsOrStr (a b : Option String) : Option String :=
  if truthyStr a then a else b

/-- The type of the recursive reference handed to each one-step builder. -/
abbrev Tr := Decl → Bool → TState → Res GType

/-- Transform enum: build once and stash in the gql slot; values carry each
symbol's underlying map value (values[k] = { value: v }). -/
def enums (d : Decl) (s : TState) : Res GType :=
  match d.cacheId.bind (cacheLookup s.cache) with
  | some g => .ok (g, s)
  | none =>
    match d.metaMap with
    | none => .error jsTypeError
    | some m =>
      let g : GType := .enumT s.counter d.displayName m
      .ok (g, { cache := cacheInsert d.cacheId g s.cache,
                counter := s.counter + 1 })

/-- Transform list: new GraphQLList(transform(type.meta.type)); the recursive
call passes no optional flag, hence optional = false. -/
def list (tr : Tr) (d : Decl) (s : TState) : Res GType :=
  match d.metaType with
  | none => .error jsTypeError
  | some e =>
    match tr e false s with
    | .error er => .error er
    | .ok (g, s1) => .ok (.listT g, s1)

/-- Transform maybe: wrap temporarily to notify the transform function,
{ maybe: true, type: transform(type.meta.type, true) }. -/
def maybe (tr : Tr) (d : Decl) (s : TState) : Res GType :=
  match d.metaType with
  | none => .error jsTypeError
  | some i =>
    match tr i true s with
    | .error er => .error er
    | .ok (g, s1) => .ok (.maybeMarker g, s1)

/-- meta.types.map(t => transform(t, true)), also used for the declared
interface list, which maps through transform(i, true) the same way. -/
def typesMap (tr : Tr) : List Decl → TState → Res (List GType)
  | [], s => .ok ([], s)
  | d :: rest, s =>
    match tr d true s with
    | .error er => .error er
    | .ok (g, s1) =>
      match typesMap tr rest s1 with
      | .error er => .error er
      | .ok (gs, s2) => .ok (g :: gs, s2)

/-- type.interfaces && type.interfaces.map(i => transform(i, true)). -/
def interfacesMap (tr : Tr) (o : Option (List Decl)) (s : TState) :
    Res (Option (List GType)) :=
  match o with
  | none => .ok (none, s)
  | some l =>
    match typesMap tr l s with
    | .error er => .error er
    | .ok (gs, s1) => .ok (some gs, s1)

/-- Transform union: a fresh GraphQLUnionType on every call (no gql memo);
resolveType composes the declaration's dispatch function, an opaque runtime
value, with the display-name lookup, and is not recorded on the model. -/
def union (tr : Tr) (d : Decl) (s : TState) : Res GType :=
  match d.metaTypes with
  | none => .error jsTypeError
  | some ts =>
    match typesMap tr ts s with
    | .error er => .error er
    | .ok (gs, s1) =>
      .ok (.unionT s1.counter d.displayName (jsOrStr d.getTypeDesc d.getDesc) gs,
           { cache := s1.cache, counter := s1.counter + 1 })

/-- Object.entries of a __args value: a plain mapping yields its entries; the
enumerable own properties of a tcomb type function are not field declarations,
so a declaration used directly yields no usable argument entries. -/
def fnArgsEntries : FnArgs → List (String × Decl)
  | .mapping m => m
  | .decl _ => []

/-- The per-field argument objects: { type: transform(v), defaultValue: v.__val,
description: v.__desc } for each entry. -/
def argsMap (tr : Tr) : List (String × Decl) → TState → Res (List (String × GArg))
  | [], s => .ok ([], s)
  | (k, v) :: rest, s =>
    match tr v false s with
    | .error er => .error er
    | .ok (ty, s1) =>
      match argsMap tr rest s1 with
      | .error er => .error er
      | .ok (ags, s2) => .ok ((k, .mk ty v.getVal v.getDesc) :: ags, s2)

/-- propType.__args && Object.entries(propType.__args).reduce(...). -/
def argsMapOpt (tr : Tr) (o : Option FnArgs) (s : TState) :
    Res (Option (List (String × GArg))) :=
  match o with
  | none => .ok (none, s)
  | some fa =>
    match argsMap tr (fnArgsEntries fa) s with
    | .error er => .error er
    | .ok (ags, s1) => .ok (some ags, s1)

/-- The fields reduce of the object builder, in declared order; for each
property the field literal evaluates its type transform first and its argument
transforms second.  Object.entries of a JavaScript object yields distinct
keys, so consecutive insertion is plain consing. -/
def objectFields (tr : Tr) : List (String × Decl) → TState → Res (List (String × GField))
  | [], s => .ok ([], s)
  | (k, pt) :: rest, s =>
    match tr pt false s with
    | .error er => .error er
    | .ok (ty, s1) =>
      match argsMapOpt tr pt.getArgs s1 with
      | .error er => .error er
      | .ok (ar, s2) =>
        match objectFields tr rest s2 with
        | .error er => .error er
        | .ok (fs, s3) => .ok ((k, .mk ty pt.getVal pt.getDesc ar) :: fs, s3)

/-- The shared object builder: if (type.gql) return type.gql, else build and
stash.  The constructor argument literal evaluates name, description,
interfaces and fields in that order, then allocates; the _typeConfig mangle
workaround touches only a private field of the external library and is not
modelled. -/
def object (tr : Tr) (d : Decl) (kind : ObjKind) (s : TState) : Res GType :=
  match d.cacheId.bind (cacheLookup s.cache) with
  | some g => .ok (g, s)
  | none =>
    match interfacesMap tr d.getInterfaces s with
    | .error er => .error er
    | .ok (ifs, s1) =>
      match d.metaProps with
      | none => .error jsTypeError
      | some props =>
        match objectFields tr props s1 with
        | .error er => .error er
        | .ok (fs, s2) =>
          let g : GType :=
            .objectT s2.counter kind d.displayName
              (jsOrStr d.getTypeDesc d.getDesc) ifs fs
          .ok (g, { cache := cacheInsert d.cacheId g s2.cache,
                    counter := s2.counter + 1 })

/-- Transform struct: object kind chosen by the __input marker. -/
def struct (tr : Tr) (d : Decl) (s : TState) : Res GType :=
  object tr d (if d.getInput then ObjKind.inputObject else ObjKind.object) s

/-- Transform interface: the application supplies resolveType externally. -/
def inter (tr : Tr) (d : Decl) (s : TState) : Res GType :=
  object tr d ObjKind.interface s

/-- Lines 72 and 73 of the source: let x = typeMap[type.meta.name] ||
typeMap[type.meta.kind]; x = typeof x is function ? x(type) : x.  A missing
entry leaves x undefined. -/
def resolveMapping (tr : Tr) (d : Decl) (s : TState) : Res GType :=
  match lookupTypeMap d with
  | none => .ok (.undefined, s)
  | some (.const g) => .ok (g, s)
  | some (.builder b) =>
    match b with
    | .enums => enums d s
    | .inter => inter tr d s
    | .list => list tr d s
    | .maybe => maybe tr d s
    | .struct => struct tr d s
    | .union => union tr d s

/-- transform(type, optional): resolve the mapping, then apply the optionality
policy.  When optional, return x as-is (a maybe marker is not double-wrapped,
a plain type stays bare).  When not optional, x.maybe picks the unwrap branch;
reading .maybe on undefined throws, and any other x is wrapped non-null. -/
def transform : Nat → Decl → Bool → TState → Res GType
  | 0, _, _, _ => .error fuelOut
  | n + 1, d, optional, s =>
    match resolveMapping (transform n) d s with
    | .error er => .error er
    | .ok (x, s1) =>
      if optional then .ok (x, s1)
      else
        match x with
        | .maybeMarker t => .ok (t, s1)
        | .undefined => .error jsTypeError
        | _ => .ok (.nonNull x, s1)

/-- args.meta && args.meta.props || args: a declaration exposing a structural
field mapping contributes that mapping, anything else is used unchanged. -/
def fnArgsOf : FnArgs → FnArgs
  | .decl d =>
    match d.metaProps with
    | some ps => .mapping ps
    | none => .decl d
  | .mapping m => .mapping m

/-- type(name, __typeDesc, props, ...interfaces): a proxied struct carrying a
display description and the declared interface list (possibly empty). -/
def type (name : Option String) (typeDesc : Option String)
    (props : List (String × Decl)) (sid : Nat) (interfaces : List Decl) : Decl :=
  .proxyD (.structD sid name props)
    (.mk (some typeDesc) none none none none none (some interfaces))

/-- input(name, __typeDesc, props): a proxied struct marked as input. -/
def input (name : Option String) (typeDesc : Option String)
    (props : List (String × Decl)) (sid : Nat) : Decl :=
  .proxyD (.structD sid name props)
    (.mk (some typeDesc) none none none none (some true) none)

/-- fn(args, OutputType, __publishType, __desc): proxies the output type; the
__args, __publishType and __desc keys are always present on the proxy. -/
def fn (args : FnArgs) (OutputType : Decl) (publishType : Option Decl)
    (desc : Option String) : Decl :=
  .proxyD OutputType
    (.mk none (some desc) none (some (fnArgsOf args)) (some publishType) none none)

/-- arg(Type, val, desc): when val is exactly null only __desc is attached;
otherwise both __val and __desc are. -/
def arg (T : Decl) (val : JsVal) (desc : Option String) : Decl :=
  if val = .null then .proxyD T (.mk none (some desc) none none none none none)
  else .proxyD T (.mk none (some desc) (some val) none none none none)

/-- JavaScript object property read: the first (only) binding of the key. -/
def olookup {a : Type} : List (String × a) → String → Option a
  | [], _ => none
  | (k0, v0) :: rest, k => if k0 = k then some v0 else olookup rest k

/-- JavaScript object property write: an existing key keeps its position and
gets the new value, a fresh key is appended in insertion order. -/
def setKey {a : Type} : List (String × a) → String → a → List (String × a)
  | [], k, v => [(k, v)]
  | (k0, v0) :: rest, k, v =>
    if k0 = k then (k0, v) :: rest else (k0, v0) :: setKey rest k v

/-- A nested resolver or permission table: plain objects merge recursively
under deep-extend, and anything else (a resolver function, a shield rule,
represented by an opaque tag) is a leaf that assignment replaces. -/
inductive RTree where
  | leaf (v : Nat)
  | node (children : List (String × RTree))

/-- deep-extend over the children: walk the source entries in order; when the
source value and the existing target value are both plain objects the merge
recurses, otherwise the source value replaces the target value. -/
def deepExtendList : List (String × RTree) → List (String × RTree) →
    List (String × RTree)
  | tcs, [] => tcs
  | tcs, (k, RTree.leaf v) :: rest =>
    deepExtendList (setKey tcs k (RTree.leaf v)) rest
  | tcs, (k, RTree.node svc) :: rest =>
    match olookup tcs k with
    | some (RTree.node tc) =>
      deepExtendList (setKey tcs k (RTree.node (deepExtendList tc svc))) rest
    | _ => deepExtendList (setKey tcs k (RTree.node svc)) rest

/-- deepExtend(target, source) from the deep-extend package, as used on the
resolver and permission tables. -/
def deepExtend (t s : RTree) : RTree :=
  match t, s with
  | RTree.node tcs, RTree.node scs => RTree.node (deepExtendList tcs scs)
  | _, _ => s

/-- The mutable state of a TCombGraphQLSchema instance: the constructor
initializes mutations, queries, subscriptions and shield to null and the
resolver table to an empty object. -/
structure TCombGraphQLSchema where
  mutations : Option (List (String × Decl))
  queries : Option (List (String × Decl))
  resolvers : RTree
  subscriptions : Option (List (String × Decl))
  shield : Option RTree

/-- new TCombGraphQLSchema(). -/
def newSchema : TCombGraphQLSchema :=
  { mutations := none, queries := none, resolvers := RTree.node [],
    subscriptions := none, shield := none }

namespace TCombGraphQLSchema

/-- One iteration of the addMutations loop: store the entry, and when its
declaration carries a truthy publish type, register that publish type under
the same key in the subscription set. -/
def addMutationEntry (a : TCombGraphQLSchema) (kv : String × Decl) :
    TCombGraphQLSchema :=
  let a1 := { a with mutations := some (setKey (a.mutations.getD []) kv.1 kv.2) }
  match kv.2.getPublishType with
  | some pt =>
    { a1 with subscriptions := some (setKey (a1.subscriptions.getD []) kv.1 pt) }
  | none => a1

/-- addMutations(mutations): initialize the map if unset, then process the
entries in order. -/
def addMutations (a : TCombGraphQLSchema) (ms : List (String × Decl)) :
    TCombGraphQLSchema :=
  ms.foldl addMutationEntry { a with mutations := some (a.mutations.getD []) }

/-- addQueries(queries): initialize the map if unset, then store each entry. -/
def addQueries (a : TCombGraphQLSchema) (qs : List (String × Decl)) :
    TCombGraphQLSchema :=
  { a with
    queries := some (qs.foldl (fun m kv => setKey m kv.1 kv.2) (a.queries.getD [])) }

/-- addResolvers(resolvers): deep-extend into the resolver table. -/
def addResolvers (a : TCombGraphQLSchema) (r : RTree) : TCombGraphQLSchema :=
  { a with resolvers := deepExtend a.resolvers r }

/-- addPermissions(permissions): the first call stores the table, later calls
deep-extend into it. -/
def addPermissions (a : TCombGraphQLSchema) (p : RTree) : TCombGraphQLSchema :=
  { a with shield := some (match a.shield with
                           | some sh => deepExtend sh p
                           | none => p) }

end TCombGraphQLSchema

/-- The schema object toGraphQL assembles: the three optional root types, the
resolver table bound by addResolveFunctionsToSchema, and, when permissions
were registered, the middleware layer built by applyMiddleware from
shield(table, { fallback: permission-denied message }). -/
structure SchemaObj where
  query : Option GType
  mutation : Option GType
  subscription : Option GType
  resolvers : RTree
  middleware : Option (RTree × String)

def permissionDenied : String := "Permission denied"

def nmQuery : String := "Query"

def nmMutation : String := "Mutation"

def nmSubscription : String := "Subscription"

/-- One root type of toGraphQL: when the registration map is set (non-null),
wrap it in a fresh synthetic struct declaration named for the root and
transform it with optional = true; the struct is a new tcomb object, so its
identity rid is fresh.  An unset map contributes no root type. -/
def rootTransform (n : Nat) (rid : Nat) (nm : String)
    (m : Option (List (String × Decl))) (s : TState) : Res (Option GType) :=
  match m with
  | none => .ok (none, s)
  | some entries =>
    match transform n (Decl.structD rid (some nm) entries) true s with
    | .error er => .error er
    | .ok (g, s1) => .ok (some g, s1)

/-- toGraphQL(adapt): build whichever root types have a set registration map,
assemble the schema object, bind the resolver table, wrap with the shield
middleware when permissions were registered, then hand the schema to the
adapt callback if one was supplied. -/
def toGraphQL (n qid mid sid : Nat) (adapt : Option (SchemaObj → SchemaObj))
    (a : TCombGraphQLSchema) (s : TState) : Res SchemaObj :=
  match rootTransform n qid nmQuery a.queries s with
  | .error er => .error er
  | .ok (q, s1) =>
    match rootTransform n mid nmMutation a.mutations s1 with
    | .error er => .error er
    | .ok (m, s2) =>
      match rootTransform n sid nmSubscription a.subscriptions s2 with
      | .error er => .error er
      | .ok (sub, s3) =>
        let schema : SchemaObj :=
          { query := q, mutation := m, subscription := sub,
            resolvers := a.resolvers,
            middleware := a.shield.map (fun sh => (sh, permissionDenied)) }
        .ok ((match adapt with | some f => f schema | none => schema), s3)

/-- A call against the assembler's registration surface, for stating
properties over whole call sequences. -/
inductive AsmOp where
  | addMutations (ms : List (String × Decl))
  | addQueries (qs : List (String × Decl))
  | addResolvers (r : RTree)
  | addPermissions (p : RTree)

def applyOp (a : TCombGraphQLSchema) : AsmOp → TCombGraphQLSchema
  | .addMutations ms => a.addMutations ms
  | .addQueries qs => a.addQueries qs
  | .addResolvers r => a.addResolvers r
  | .addPermissions p => a.addPermissions p

def applyOps (a : TCombGraphQLSchema) (ops : List AsmOp) : TCombGraphQLSchema :=
  ops.foldl applyOp a

/-- Path lookup in a nested table: type name, then field name. -/
def rlookup (t : RTree) (ty f : String) : Option RTree :=
  match t with
  | RTree.leaf _ => none
  | RTree.node cs =>
    match olookup cs ty with
    | some (RTree.node fs) => olookup fs f
    | _ => none

/-- Top-level lookup in a nested table. -/
def tlookup (t : RTree) (ty : String) : Option RTree :=
  match t with
  | RTree.leaf _ => none
  | RTree.node cs => olookup cs ty

/-! Concrete declarations mirroring the shipped examples, used below as
witness inputs and as sanity checks of the embedding. -/

def s0 : TState := { cache := [], counter := 0 }

def nmString : String := "String"

def nmInteger : String := "Integer"

def nmBoolean : String := "Boolean"

def nmID : String := "ID"

def tString : Decl := .irr nmString

def tInteger : Decl := .irr nmInteger

def tBoolean : Decl := .irr nmBoolean

/-- t.ID = t.union([t.String, t.Integer], 'ID'): its registered name wins the
type-map lookup over its union kind. -/
def tID : Decl := .unionD (some nmID) [tString, tInteger]

def nmBeep : String := "Beep"

def dsBeep : String := "A beep noise"

def fBeepiness : String := "beepiness"

def declBeep : Decl := type (some nmBeep) (some dsBeep) [(fBeepiness, tInteger)] 1 []

example : transform 3 tString false s0 = .ok (.nonNull .scalarString, s0) := rfl

example : transform 3 tString true s0 = .ok (.scalarString, s0) := rfl

example : transform 3 tID true s0 = .ok (.scalarID, s0) := rfl

example : transform 3 (Decl.maybeD none tString) false s0 = .ok (.scalarString, s0) := rfl

example : transform 4 (Decl.listD none tString) false s0 =
    .ok (.nonNull (.listT (.nonNull .scalarString)), s0) := rfl

example : transform 5 (Decl.listD none (Decl.maybeD none tString)) false s0 =
    .ok (.nonNull (.listT .scalarString), s0) := rfl

example : transform 5 declBeep true s0 =
    .ok (.objectT 0 .object nmBeep (some dsBeep) (some [])
           [(fBeepiness, .mk (.nonNull .scalarInt) .undefined none none)],
         { cache := [(1, .objectT 0 .object nmBeep (some dsBeep) (some [])
             [(fBeepiness, .mk (.nonNull .scalarInt) .undefined none none)])],
           counter := 1 }) := rfl

/-! Claim theorems: the type transformer. -/

/-- Claim C1: transform follows the four-case optionality policy on the
resolved mapping x of a declaration: with optional = true a maybe marker is
returned as-is (no double wrap) and a plain resolved type is returned bare;
with optional = false a maybe marker is unwrapped to its inner type and a
plain resolved type is wrapped non-null. -/
theorem C1_optionality_policy :
    ∀ (n : Nat) (d : Decl) (s s1 : TState) (x : GType),
      resolveMapping (transform n) d s = Except.ok (x, s1) →
      (∀ inner, x = GType.maybeMarker inner →
        transform (n + 1) d true s = Except.ok (GType.maybeMarker inner, s1) ∧
        transform (n + 1) d false s = Except.ok (inner, s1)) ∧
      ((∀ inner, x ≠ GType.maybeMarker inner) → x ≠ GType.undefined →
        transform (n + 1) d true s = Except.ok (x, s1) ∧
        transform (n + 1) d false s = Except.ok (GType.nonNull x, s1)) := by
  intro n d s s1 x h
  constructor
  · intro inner hx
    subst hx
    constructor <;> simp [transform, h]
  · intro hnm hnu
    cases x <;>
      first
        | exact absurd rfl (hnm _)
        | exact absurd rfl hnu
        | exact ⟨by simp [transform, h], by simp [transform, h]⟩

/-- Witness for C1 at the maybe-wrapped and plain string declarations. -/
theorem C1_witness :
    (transform 3 (Decl.maybeD none tString) true s0 =
       Except.ok (GType.maybeMarker GType.scalarString, s0) ∧
     transform 3 (Decl.maybeD none tString) false s0 =
       Except.ok (GType.scalarString, s0)) ∧
    (transform 1 tString true s0 = Except.ok (GType.scalarString, s0) ∧
     transform 1 tString false s0 =
       Except.ok (GType.nonNull GType.scalarString, s0)) :=
  ⟨(C1_optionality_policy 2 (Decl.maybeD none tString) s0 s0
      (GType.maybeMarker GType.scalarString) rfl).1 GType.scalarString rfl,
   (C1_optionality_policy 0 tString s0 s0 GType.scalarString rfl).2
      (fun _ h => GType.noConfusion h) (fun h => GType.noConfusion h)⟩

/-- Claim C7: a list declaration becomes a list wrapper around the transform
of its element with implicit optional = false; elements are non-null-wrapped
when their resolved mapping is plain, bare when the element is wrapped maybe;
the container is non-null unless the whole list declaration is wrapped
optional, in which case the bare list is produced. -/
theorem C7_list_element_optionality :
    (∀ (n : Nat) (e : Decl) (s s1 : TState) (x : GType),
       transform n e false s = Except.ok (x, s1) →
       transform (n + 1) (Decl.listD none e) false s =
         Except.ok (GType.nonNull (GType.listT x), s1) ∧
       transform (n + 1) (Decl.listD none e) true s =
         Except.ok (GType.listT x, s1)) ∧
    (∀ (n : Nat) (e : Decl) (s s1 : TState) (x : GType),
       resolveMapping (transform n) e s = Except.ok (x, s1) →
       (∀ i, x ≠ GType.maybeMarker i) → x ≠ GType.undefined →
       transform (n + 2) (Decl.listD none e) false s =
         Except.ok (GType.nonNull (GType.listT (GType.nonNull x)), s1)) ∧
    (∀ (n : Nat) (i : Decl) (s s1 : TState) (y : GType),
       transform n i true s = Except.ok (y, s1) →
       transform (n + 2) (Decl.listD none (Decl.maybeD none i)) false s =
         Except.ok (GType.nonNull (GType.listT y), s1)) ∧
    (∀ (n : Nat) (i : Decl) (s s1 : TState) (y : GType),
       transform n i true s = Except.ok (y, s1) →
       transform (n + 3)
           (Decl.maybeD none (Decl.listD none (Decl.maybeD none i))) false s =
         Except.ok (GType.listT y, s1)) := by
  have hlist : ∀ (n : Nat) (e : Decl) (s s1 : TState) (x : GType),
      transform n e false s = Except.ok (x, s1) →
      transform (n + 1) (Decl.listD none e) false s =
        Except.ok (GType.nonNull (GType.listT x), s1) ∧
      transform (n + 1) (Decl.listD none e) true s =
        Except.ok (GType.listT x, s1) := by
    intro n e s s1 x h
    constructor <;>
      simp [transform, resolveMapping, lookupTypeMap, typeMap, Decl.metaName,
            Decl.metaKind, list, Decl.metaType, h]
  have hmaybe : ∀ (n : Nat) (i : Decl) (s s1 : TState) (y : GType),
      transform n i true s = Except.ok (y, s1) →
      transform (n + 1) (Decl.maybeD none i) false s = Except.ok (y, s1) := by
    intro n i s s1 y h
    simp [transform, resolveMapping, lookupTypeMap, typeMap, Decl.metaName,
          Decl.metaKind, maybe, Decl.metaType, h]
  have hmaybeT : ∀ (n : Nat) (i : Decl) (s s1 : TState) (y : GType),
      transform n i true s = Except.ok (y, s1) →
      transform (n + 1) (Decl.maybeD none i) true s =
        Except.ok (GType.maybeMarker y, s1) := by
    intro n i s s1 y h
    simp [transform, resolveMapping, lookupTypeMap, typeMap, Decl.metaName,
          Decl.metaKind, maybe, Decl.metaType, h]
  refine ⟨hlist, ?_, ?_, ?_⟩
  · intro n e s s1 x h hnm hnu
    have he : transform (n + 1) e false s = Except.ok (GType.nonNull x, s1) :=
      ((C1_optionality_policy n e s s1 x h).2 hnm hnu).2
    exact (hlist (n + 1) e s s1 (GType.nonNull x) he).1
  · intro n i s s1 y h
    exact (hlist (n + 1) (Decl.maybeD none i) s s1 y (hmaybe n i s s1 y h)).1
  · intro n i s s1 y h
    have hl : transform (n + 2) (Decl.listD none (Decl.maybeD none i)) true s =
        Except.ok (GType.listT y, s1) :=
      (hlist (n + 1) (Decl.maybeD none i) s s1 y (hmaybe n i s s1 y h)).2
    exact hmaybe (n + 2) (Decl.listD none (Decl.maybeD none i)) s s1
      (GType.listT y) hl

/-- Witness for C7 at a string element. -/
theorem C7_witness :
    (transform 2 (Decl.listD none tString) false s0 =
       Except.ok (GType.nonNull (GType.listT (GType.nonNull GType.scalarString)), s0) ∧
     transform 2 (Decl.listD none tString) true s0 =
       Except.ok (GType.listT (GType.nonNull GType.scalarString), s0)) ∧
    transform 2 (Decl.listD none tString) false s0 =
      Except.ok (GType.nonNull (GType.listT (GType.nonNull GType.scalarString)), s0) ∧
    transform 3 (Decl.listD none (Decl.maybeD none tString)) false s0 =
      Except.ok (GType.nonNull (GType.listT GType.scalarString), s0) ∧
    transform 4 (Decl.maybeD none (Decl.listD none (Decl.maybeD none tString))) false s0 =
      Except.ok (GType.listT GType.scalarString, s0) :=
  ⟨C7_list_element_optionality.1 1 tString s0 s0 (GType.nonNull GType.scalarString) rfl,
   C7_list_element_optionality.2.1 0 tString s0 s0 GType.scalarString rfl
     (fun _ h => GType.noConfusion h) (fun h => GType.noConfusion h),
   C7_list_element_optionality.2.2.1 1 tString s0 s0 GType.scalarString rfl,
   C7_list_element_optionality.2.2.2 1 tString s0 s0 GType.scalarString rfl⟩

def nmCustom : String := "CustomScalar"

/-- Counterexample to claim C8: at a declaration whose display name and
structural kind both lack a type-map entry, transform with optional = true
returns normally with the undefined value — it does not surface an unhandled
failure for that value of the optional flag. -/
theorem C8_counterexample :
    lookupTypeMap (Decl.irr nmCustom) = none ∧
    transform 2 (Decl.irr nmCustom) true s0 = Except.ok (GType.undefined, s0) :=
  ⟨rfl, rfl⟩

/-- Claim C8 as amended: when both lookups miss, transform with
optional = false throws an unhandled TypeError (reading .maybe of undefined),
while with optional = true it returns the JavaScript undefined value; in
neither case is a schema type produced or the failure caught. -/
theorem C8_unknown_mapping :
    ∀ (n : Nat) (d : Decl) (s : TState),
      lookupTypeMap d = none →
      transform (n + 1) d false s = Except.error jsTypeError ∧
      transform (n + 1) d true s = Except.ok (GType.undefined, s) := by
  intro n d s h
  constructor <;> simp [transform, resolveMapping, h]

/-- Witness for C8 as amended, at an unregistered custom scalar name. -/
theorem C8_witness :
    transform 1 (Decl.irr nmCustom) false s0 = Except.error jsTypeError ∧
    transform 1 (Decl.irr nmCustom) true s0 = Except.ok (GType.undefined, s0) :=
  C8_unknown_mapping 0 (Decl.irr nmCustom) s0 rfl

def fY : String := "y"

def dsOuter : String := "outer arg description"

/-- arg(t.Integer, 5): a declaration already carrying a default value. -/
def dInnerArg : Decl := arg tInteger (JsVal.num 5) none

/-- arg(dInnerArg, null, desc): attaches no __val of its own. -/
def dOuterArg : Decl := arg dInnerArg JsVal.null (some dsOuter)

/-- Counterexample to claim C9: arg(d, null, s) attaches no default-value
metadata, but because the absent __val key delegates to d, the resulting
schema argument still carries d's own default value — here 5 — so the claim's
conclusion that the argument carries no default value fails when d is itself
annotated. -/
theorem C9_counterexample :
    dOuterArg.getVal = JsVal.num 5 ∧
    argsMap (transform 1) [(fY, dOuterArg)] s0 =
      Except.ok ([(fY, GArg.mk (GType.nonNull GType.scalarInt) (JsVal.num 5)
                        (some dsOuter))], s0) :=
  ⟨rfl, rfl⟩

/-- Claim C9 as amended: arg(d, null, s) attaches only the description — its
__val read delegates to d, so the schema argument carries no default value
exactly when d itself carries none; for v other than null, arg(d, v, s)
attaches v and the argument builder carries the attached value and
description verbatim into the schema argument. -/
theorem C9_arg_default_metadata :
    ∀ (T : Decl) (v : JsVal) (ds : Option String),
      ((arg T JsVal.null ds).getVal = T.getVal ∧
       (arg T JsVal.null ds).getDesc = ds) ∧
      (v ≠ JsVal.null →
       (arg T v ds).getVal = v ∧ (arg T v ds).getDesc = ds) ∧
      (∀ (tr : Tr) (k : String) (rest : List (String × Decl)) (s s1 s2 : TState)
         (ty : GType) (ags : List (String × GArg)),
         tr (arg T v ds) false s = Except.ok (ty, s1) →
         argsMap tr rest s1 = Except.ok (ags, s2) →
         argsMap tr ((k, arg T v ds) :: rest) s =
           Except.ok ((k, GArg.mk ty (arg T v ds).getVal
                            (arg T v ds).getDesc) :: ags, s2)) := by
  intro T v ds
  refine ⟨⟨?_, ?_⟩, ?_, ?_⟩
  · simp [arg, Decl.getVal]
  · simp [arg, Decl.getDesc]
  · intro hv
    constructor <;> simp [arg, hv, Decl.getVal, Decl.getDesc]
  · intro tr k rest s s1 s2 ty ags h1 h2
    simp [argsMap, h1, h2]

/-- Witness for C9 as amended: a plain integer argument with default 7 and a
null-default argument over a plain declaration. -/
theorem C9_witness :
    ((arg tInteger JsVal.null (some dsOuter)).getVal = tInteger.getVal ∧
     (arg tInteger JsVal.null (some dsOuter)).getDesc = some dsOuter) ∧
    ((arg tInteger (JsVal.num 7) (some dsOuter)).getVal = JsVal.num 7 ∧
     (arg tInteger (JsVal.num 7) (some dsOuter)).getDesc = some dsOuter) ∧
    argsMap (transform 1) [(fY, arg tInteger (JsVal.num 7) (some dsOuter))] s0 =
      Except.ok ([(fY, GArg.mk (GType.nonNull GType.scalarInt) (JsVal.num 7)
                        (some dsOuter))], s0) := by
  refine ⟨(C9_arg_default_metadata tInteger JsVal.null (some dsOuter)).1, ?_, ?_⟩
  · exact (C9_arg_default_metadata tInteger (JsVal.num 7) (some dsOuter)).2.1
      (by decide)
  · have h := (C9_arg_default_metadata tInteger (JsVal.num 7) (some dsOuter)).2.2
      (transform 1) fY [] s0 s0 s0 (GType.nonNull GType.scalarInt) [] rfl rfl
    rw [h]
    rfl

def nmSMI : String := "SendMessageInput"

def dsSMI : String := "sendMessage input"

def fText : String := "text"

def fId : String := "id"

/-- input('SendMessageInput', 'sendMessage input', { text: t.String }). -/
def declSMI : Decl := input (some nmSMI) (some dsSMI) [(fText, tString)] 2

/-- Claim C10: fn accepts its args parameter in two shapes — a declaration
exposing a structural field mapping via its meta contributes that mapping as
the argument mapping of the returned annotated declaration, and anything else
is used unchanged as the argument mapping. -/
theorem C10_fn_args_shapes :
    ∀ (args : FnArgs) (out : Decl) (pt : Option Decl) (ds : Option String),
      (fn args out pt ds).getArgs = some (fnArgsOf args) ∧
      (∀ d ps, args = FnArgs.decl d → d.metaProps = some ps →
        fnArgsOf args = FnArgs.mapping ps) ∧
      (∀ d, args = FnArgs.decl d → d.metaProps = none → fnArgsOf args = args) ∧
      (∀ m, args = FnArgs.mapping m → fnArgsOf args = args) := by
  intro args out pt ds
  refine ⟨rfl, ?_, ?_, ?_⟩
  · intro d ps hd hp
    subst hd
    simp [fnArgsOf, hp]
  · intro d hd hp
    subst hd
    simp [fnArgsOf, hp]
  · intro m hm
    subst hm
    rfl

/-- Witness for C10: a struct declaration contributes its field mapping, a
non-struct declaration and a plain mapping are used unchanged. -/
theorem C10_witness :
    (fn (FnArgs.decl declSMI) declBeep none none).getArgs =
      some (FnArgs.mapping [(fText, tString)]) ∧
    (fn (FnArgs.decl tString) declBeep none none).getArgs =
      some (FnArgs.decl tString) ∧
    (fn (FnArgs.mapping [(fId, tID)]) declBeep none none).getArgs =
      some (FnArgs.mapping [(fId, tID)]) := by
  refine ⟨?_, ?_, ?_⟩
  · have h := C10_fn_args_shapes (FnArgs.decl declSMI) declBeep none none
    rw [h.1, h.2.1 declSMI [(fText, tString)] rfl rfl]
  · have h := C10_fn_args_shapes (FnArgs.decl tString) declBeep none none
    rw [h.1, h.2.2.1 tString rfl rfl]
  · have h := C10_fn_args_shapes (FnArgs.mapping [(fId, tID)]) declBeep none none
    rw [h.1, h.2.2.2 [(fId, tID)] rfl]

/-! Claim C2: memoized identity for struct, input and interface declarations. -/

/-- A declaration that the type map routes into the shared object builder
(kind struct or interface, no shadowing name entry), with its memo identity. -/
def objectRoute (d : Decl) (cid : Nat) : Prop :=
  (lookupTypeMap d = some (TypeMapEntry.builder BTag.struct) ∨
   lookupTypeMap d = some (TypeMapEntry.builder BTag.inter)) ∧
  d.cacheId = some cid

theorem object_hit (tr : Tr) (d : Decl) (kind : ObjKind) (s : TState)
    (g : GType) (cid : Nat) (hc : d.cacheId = some cid)
    (hg : cacheLookup s.cache cid = some g) :
    object tr d kind s = Except.ok (g, s) := by
  simp [object, hc, hg]

theorem object_sets (tr : Tr) (d : Decl) (kind : ObjKind) (s s1 : TState)
    (g : GType) (cid : Nat) (hc : d.cacheId = some cid)
    (h : object tr d kind s = Except.ok (g, s1)) :
    cacheLookup s1.cache cid = some g := by
  unfold object at h
  rw [hc] at h
  simp only [Option.some_bind] at h
  cases hcl : cacheLookup s.cache cid with
  | some g0 =>
    simp only [hcl] at h
    cases h
    exact hcl
  | none =>
    simp only [hcl] at h
    cases hif : interfacesMap tr d.getInterfaces s with
    | error er =>
      simp only [hif] at h
      exact Except.noConfusion h
    | ok p1 =>
      obtain ⟨ifs, sA⟩ := p1
      simp only [hif] at h
      cases hmp : d.metaProps with
      | none =>
        simp only [hmp] at h
        exact Except.noConfusion h
      | some props =>
        simp only [hmp] at h
        cases hof : objectFields tr props sA with
        | error er =>
          simp only [hof] at h
          exact Except.noConfusion h
        | ok p2 =>
          obtain ⟨fs, sB⟩ := p2
          simp only [hof] at h
          cases h
          simp [cacheInsert, cacheLookup]

theorem route_resolve (tr : Tr) (d : Decl) (cid : Nat) (s : TState)
    (h : objectRoute d cid) :
    ∃ kind, resolveMapping tr d s = object tr d kind s := by
  cases h.1 with
  | inl hl =>
    exact ⟨if d.getInput then ObjKind.inputObject else ObjKind.object,
           by simp [resolveMapping, hl, struct]⟩
  | inr hl => exact ⟨ObjKind.interface, by simp [resolveMapping, hl, inter]⟩

/-- Claim C2: a struct, input or interface declaration referenced from two
distinct sites transforms to the same schema type object by identity (the
second transform returns the cached object and leaves the state unchanged),
and an annotated (proxied) declaration shares the memo entry of its
underlying declaration, so transforming either yields the identical object. -/
theorem C2_memoized_identity :
    (∀ (d : Decl) (p : PProps) (cid : Nat),
       objectRoute d cid → objectRoute (Decl.proxyD d p) cid) ∧
    (∀ (n m : Nat) (d1 d2 : Decl) (cid : Nat) (s s1 : TState) (g : GType),
       objectRoute d1 cid → objectRoute d2 cid →
       transform n d1 true s = Except.ok (g, s1) →
       transform (m + 1) d2 true s1 = Except.ok (g, s1)) := by
  constructor
  · intro d p cid h
    obtain ⟨hl, hc⟩ := h
    refine ⟨?_, ?_⟩
    · have heq : lookupTypeMap (Decl.proxyD d p) = lookupTypeMap d := by
        simp [lookupTypeMap, Decl.metaName, Decl.metaKind]
      rw [heq]
      exact hl
    · simpa [Decl.cacheId] using hc
  · intro n m d1 d2 cid s s1 g h1 h2 ht
    cases n with
    | zero => exact absurd ht (by simp [transform, fuelOut])
    | succ n' =>
      obtain ⟨kind1, hres1⟩ := route_resolve (transform n') d1 cid s h1
      have hobj : object (transform n') d1 kind1 s = Except.ok (g, s1) := by
        cases hx : object (transform n') d1 kind1 s with
        | error er =>
          rw [show transform (n' + 1) d1 true s = Except.error er from by
                simp [transform, hres1, hx]] at ht
          exact Except.noConfusion ht
        | ok p =>
          obtain ⟨x, t⟩ := p
          rw [show transform (n' + 1) d1 true s = Except.ok (x, t) from by
                simp [transform, hres1, hx]] at ht
          cases ht
          rfl
      have hcache : cacheLookup s1.cache cid = some g :=
        object_sets (transform n') d1 kind1 s s1 g cid h1.2 hobj
      obtain ⟨kind2, hres2⟩ := route_resolve (transform m) d2 cid s1 h2
      have hhit : object (transform m) d2 kind2 s1 = Except.ok (g, s1) :=
        object_hit (transform m) d2 kind2 s1 g cid h2.2 hcache
      simp [transform, hres2, hhit]

/-- The schema object built for the Beep declaration on first transform. -/
def gBeep : GType :=
  .objectT 0 .object nmBeep (some dsBeep) (some [])
    [(fBeepiness, .mk (.nonNull .scalarInt) .undefined none none)]

def s1Beep : TState := { cache := [(1, gBeep)], counter := 1 }

def pEmpty : PProps := .mk none none none none none none none

/-- Witness for C2: transforming the Beep struct a second time — directly or
through a fresh proxy over it — returns the identical cached object and
leaves the state unchanged. -/
theorem C2_witness :
    transform 1 declBeep true s1Beep = Except.ok (gBeep, s1Beep) ∧
    transform 1 (Decl.proxyD declBeep pEmpty) true s1Beep =
      Except.ok (gBeep, s1Beep) :=
  ⟨C2_memoized_identity.2 5 0 declBeep declBeep 1 s0 s1Beep gBeep
     ⟨Or.inl rfl, rfl⟩ ⟨Or.inl rfl, rfl⟩ rfl,
   C2_memoized_identity.2 5 0 declBeep (Decl.proxyD declBeep pEmpty) 1 s0 s1Beep
     gBeep ⟨Or.inl rfl, rfl⟩
     (C2_memoized_identity.1 declBeep pEmpty 1 ⟨Or.inl rfl, rfl⟩) rfl⟩

/-! Helper lemmas: JavaScript object maps, assembler state and toGraphQL. -/

theorem olookup_setKey_self {a : Type} (m : List (String × a)) (k : String)
    (v : a) : olookup (setKey m k v) k = some v := by
  induction m with
  | nil => simp [setKey, olookup]
  | cons kv rest ih =>
    obtain ⟨k0, v0⟩ := kv
    by_cases h : k0 = k
    · subst h
      simp [setKey, olookup]
    · simp [setKey, olookup, h, ih]

theorem olookup_setKey_other {a : Type} (m : List (String × a)) (k k2 : String)
    (v : a) (h : k2 ≠ k) : olookup (setKey m k2 v) k = olookup m k := by
  induction m with
  | nil => simp [setKey, olookup, h]
  | cons kv rest ih =>
    obtain ⟨k0, v0⟩ := kv
    by_cases h0 : k0 = k2
    · subst h0
      simp [setKey, olookup, h]
    · by_cases h1 : k0 = k
      · subst h1
        simp [setKey, olookup, h0]
      · simp [setKey, olookup, h0, h1, ih]

theorem olookup_eq_none {a : Type} (m : List (String × a)) (k : String)
    (h : k ∉ m.map Prod.fst) : olookup m k = none := by
  induction m with
  | nil => rfl
  | cons kv rest ih =>
    obtain ⟨k0, v0⟩ := kv
    simp only [List.map_cons, List.mem_cons] at h
    push_neg at h
    have h0 : ¬k0 = k := fun hh => h.1 (Eq.symm hh)
    simp [olookup, h0, ih h.2]

namespace TCombGraphQLSchema

theorem addMutationEntry_queries (a : TCombGraphQLSchema) (kv : String × Decl) :
    (addMutationEntry a kv).queries = a.queries := by
  cases h : kv.2.getPublishType <;> simp [addMutationEntry, h]

theorem addMutationEntry_shield (a : TCombGraphQLSchema) (kv : String × Decl) :
    (addMutationEntry a kv).shield = a.shield := by
  cases h : kv.2.getPublishType <;> simp [addMutationEntry, h]

theorem foldl_addMut_queries (ms : List (String × Decl)) :
    ∀ (acc : TCombGraphQLSchema),
      (ms.foldl addMutationEntry acc).queries = acc.queries := by
  induction ms with
  | nil => intro acc; rfl
  | cons kv rest ih =>
    intro acc
    rw [List.foldl_cons, ih, addMutationEntry_queries]

theorem foldl_addMut_shield (ms : List (String × Decl)) :
    ∀ (acc : TCombGraphQLSchema),
      (ms.foldl addMutationEntry acc).shield = acc.shield := by
  induction ms with
  | nil => intro acc; rfl
  | cons kv rest ih =>
    intro acc
    rw [List.foldl_cons, ih, addMutationEntry_shield]

theorem addMutations_queries (a : TCombGraphQLSchema)
    (ms : List (String × Decl)) : (a.addMutations ms).queries = a.queries := by
  unfold addMutations
  rw [foldl_addMut_queries]

theorem addMutations_shield (a : TCombGraphQLSchema)
    (ms : List (String × Decl)) : (a.addMutations ms).shield = a.shield := by
  unfold addMutations
  rw [foldl_addMut_shield]

end TCombGraphQLSchema

theorem applyOp_shield_preserved (a : TCombGraphQLSchema) (op : AsmOp)
    (h : ∀ p, op ≠ AsmOp.addPermissions p) :
    (applyOp a op).shield = a.shield := by
  cases op with
  | addMutations ms => exact a.addMutations_shield ms
  | addQueries qs => rfl
  | addResolvers r => rfl
  | addPermissions p => exact absurd rfl (h p)

theorem applyOps_shield_none_iff (ops : List AsmOp) :
    ∀ (a : TCombGraphQLSchema),
      (applyOps a ops).shield = none ↔
        (a.shield = none ∧ ∀ p, AsmOp.addPermissions p ∉ ops) := by
  induction ops with
  | nil => intro a; simp [applyOps]
  | cons op rest ih =>
    intro a
    rw [show applyOps a (op :: rest) = applyOps (applyOp a op) rest from rfl, ih]
    cases op with
    | addPermissions p =>
      constructor
      · intro h
        exact absurd h.1 (by simp [applyOp, TCombGraphQLSchema.addPermissions])
      · intro h
        exact absurd (h.2 p) (by simp)
    | addMutations ms =>
      rw [applyOp_shield_preserved a _ (fun p h => AsmOp.noConfusion h)]
      simp
    | addQueries qs =>
      rw [applyOp_shield_preserved a _ (fun p h => AsmOp.noConfusion h)]
      simp
    | addResolvers r =>
      rw [applyOp_shield_preserved a _ (fun p h => AsmOp.noConfusion h)]
      simp

theorem applyOps_no_mutations (ops : List AsmOp) :
    ∀ (a : TCombGraphQLSchema), (∀ ms, AsmOp.addMutations ms ∉ ops) →
      (applyOps a ops).mutations = a.mutations ∧
      (applyOps a ops).subscriptions = a.subscriptions := by
  induction ops with
  | nil => intro a _; exact ⟨rfl, rfl⟩
  | cons op rest ih =>
    intro a h
    have hrest : ∀ ms, AsmOp.addMutations ms ∉ rest := by
      intro ms hmem
      exact h ms (List.mem_cons_of_mem _ hmem)
    have step : (applyOp a op).mutations = a.mutations ∧
        (applyOp a op).subscriptions = a.subscriptions := by
      cases op with
      | addMutations ms => exact absurd (List.mem_cons_self _ _) (h ms)
      | addQueries qs => exact ⟨rfl, rfl⟩
      | addResolvers r => exact ⟨rfl, rfl⟩
      | addPermissions p => exact ⟨rfl, rfl⟩
    have := ih (applyOp a op) hrest
    rw [show applyOps a (op :: rest) = applyOps (applyOp a op) rest from rfl]
    exact ⟨this.1.trans step.1, this.2.trans step.2⟩

theorem applyOps_queries_isSome (ops : List AsmOp) :
    ∀ (a : TCombGraphQLSchema),
      ((∃ qs, AsmOp.addQueries qs ∈ ops) ∨ a.queries.isSome) →
      (applyOps a ops).queries.isSome := by
  induction ops with
  | nil =>
    intro a h
    cases h with
    | inl h => obtain ⟨qs, hq⟩ := h; exact absurd hq (List.not_mem_nil _)
    | inr h => exact h
  | cons op rest ih =>
    intro a h
    rw [show applyOps a (op :: rest) = applyOps (applyOp a op) rest from rfl]
    cases op with
    | addQueries qs =>
      exact ih _ (Or.inr (by simp [applyOp, TCombGraphQLSchema.addQueries]))
    | addMutations ms =>
      refine ih _ ?_
      cases h with
      | inl hq =>
        obtain ⟨qs, hq⟩ := hq
        cases hq with
        | tail _ hmem => exact Or.inl ⟨qs, hmem⟩
      | inr hq =>
        refine Or.inr ?_
        rw [show (applyOp a (AsmOp.addMutations ms)).queries = a.queries from
              a.addMutations_queries ms]
        exact hq
    | addResolvers r =>
      refine ih _ ?_
      cases h with
      | inl hq =>
        obtain ⟨qs, hq⟩ := hq
        cases hq with
        | tail _ hmem => exact Or.inl ⟨qs, hmem⟩
      | inr hq => exact Or.inr hq
    | addPermissions p =>
      refine ih _ ?_
      cases h with
      | inl hq =>
        obtain ⟨qs, hq⟩ := hq
        cases hq with
        | tail _ hmem => exact Or.inl ⟨qs, hmem⟩
      | inr hq => exact Or.inr hq

theorem rootTransform_some (n rid : Nat) (nm : String)
    (entries : List (String × Decl)) (s s1 : TState) (r : Option GType)
    (h : rootTransform n rid nm (some entries) s = Except.ok (r, s1)) :
    ∃ g, r = some g := by
  cases ht : transform n (Decl.structD rid (some nm) entries) true s with
  | error er =>
    rw [show rootTransform n rid nm (some entries) s = Except.error er from by
          simp [rootTransform, ht]] at h
    exact Except.noConfusion h
  | ok p =>
    obtain ⟨g, t⟩ := p
    rw [show rootTransform n rid nm (some entries) s = Except.ok (some g, t) from by
          simp [rootTransform, ht]] at h
    cases h
    exact ⟨g, rfl⟩

theorem toGraphQL_shape (n qid mid sid : Nat) (a : TCombGraphQLSchema)
    (s s3 : TState) (sch : SchemaObj)
    (h : toGraphQL n qid mid sid none a s = Except.ok (sch, s3)) :
    ∃ (q m sub : Option GType) (s1 s2 : TState),
      rootTransform n qid nmQuery a.queries s = Except.ok (q, s1) ∧
      rootTransform n mid nmMutation a.mutations s1 = Except.ok (m, s2) ∧
      rootTransform n sid nmSubscription a.subscriptions s2 = Except.ok (sub, s3) ∧
      sch = { query := q, mutation := m, subscription := sub,
              resolvers := a.resolvers,
              middleware := a.shield.map (fun sh => (sh, permissionDenied)) } := by
  cases h1 : rootTransform n qid nmQuery a.queries s with
  | error er =>
    rw [show toGraphQL n qid mid sid none a s = Except.error er from by
          simp [toGraphQL, h1]] at h
    exact Except.noConfusion h
  | ok p1 =>
    obtain ⟨q, s1⟩ := p1
    cases h2 : rootTransform n mid nmMutation a.mutations s1 with
    | error er =>
      rw [show toGraphQL n qid mid sid none a s = Except.error er from by
            simp [toGraphQL, h1, h2]] at h
      exact Except.noConfusion h
    | ok p2 =>
      obtain ⟨m, s2⟩ := p2
      cases h3 : rootTransform n sid nmSubscription a.subscriptions s2 with
      | error er =>
        rw [show toGraphQL n qid mid sid none a s = Except.error er from by
              simp [toGraphQL, h1, h2, h3]] at h
        exact Except.noConfusion h
      | ok p3 =>
        obtain ⟨sub, s3x⟩ := p3
        rw [show toGraphQL n qid mid sid none a s = Except.ok
              ({ query := q, mutation := m, subscription := sub,
                 resolvers := a.resolvers,
                 middleware := a.shield.map (fun sh => (sh, permissionDenied)) },
               s3x) from by
              simp [toGraphQL, h1, h2, h3]] at h
        cases h
        exact ⟨q, m, sub, s1, s2, rfl, h2, h3, rfl⟩

/-- Claim C6: toGraphQL wraps the assembled schema with the authorization
middleware exactly when at least one addPermissions call was made on the
assembler, parameterized by the merged permission table and the fixed
fallback denial message; with no permissions registered the schema carries no
middleware layer.  The last conjunct shows the table is the running
deep-merge of the registered permission tables. -/
theorem C6_shield_exactly_when_permissions :
    ∀ (ops : List AsmOp) (n qid mid sid : Nat) (s s3 : TState) (sch : SchemaObj),
      toGraphQL n qid mid sid none (applyOps newSchema ops) s =
        Except.ok (sch, s3) →
      sch.middleware =
        (applyOps newSchema ops).shield.map (fun sh => (sh, permissionDenied)) ∧
      ((∃ p, AsmOp.addPermissions p ∈ ops) ↔
        ∃ tbl, sch.middleware = some (tbl, permissionDenied)) ∧
      ((∀ p, AsmOp.addPermissions p ∉ ops) → sch.middleware = none) ∧
      (∀ p, (applyOps newSchema (ops ++ [AsmOp.addPermissions p])).shield =
        some (match (applyOps newSchema ops).shield with
              | none => p
              | some t => deepExtend t p)) := by
  intro ops n qid mid sid s s3 sch h
  obtain ⟨q, m, sub, s1, s2, h1, h2, h3, hsch⟩ :=
    toGraphQL_shape n qid mid sid (applyOps newSchema ops) s s3 sch h
  have hmid : sch.middleware =
      (applyOps newSchema ops).shield.map (fun sh => (sh, permissionDenied)) := by
    rw [hsch]
  have hiff := applyOps_shield_none_iff ops newSchema
  refine ⟨hmid, ?_, ?_, ?_⟩
  · constructor
    · intro hex
      cases hsh : (applyOps newSchema ops).shield with
      | none =>
        obtain ⟨p, hp⟩ := hex
        exact absurd hp ((hiff.mp hsh).2 p)
      | some tbl =>
        exact ⟨tbl, by rw [hmid, hsh]; rfl⟩
    · intro hex
      obtain ⟨tbl, htbl⟩ := hex
      by_contra hno
      push_neg at hno
      have hnone : (applyOps newSchema ops).shield = none :=
        hiff.mpr ⟨rfl, fun p hp => hno p hp⟩
      rw [hmid, hnone] at htbl
      exact Option.noConfusion htbl
  · intro hno
    have hnone : (applyOps newSchema ops).shield = none :=
      hiff.mpr ⟨rfl, hno⟩
    rw [hmid, hnone]
    rfl
  · intro p
    rw [show applyOps newSchema (ops ++ [AsmOp.addPermissions p]) =
          applyOp (applyOps newSchema ops) (AsmOp.addPermissions p) from by
          simp [applyOps, List.foldl_append]]
    cases hsh : (applyOps newSchema ops).shield <;>
      simp [applyOp, TCombGraphQLSchema.addPermissions, hsh]

def fRand : String := "randomInt"

def permTab : RTree := RTree.node [(nmQuery, RTree.node [(fRand, RTree.leaf 0)])]

def opsC6 : List AsmOp := [AsmOp.addQueries [], AsmOp.addPermissions permTab]

def qRootC6 : GType := .objectT 0 .object nmQuery none none []

def schC6 : SchemaObj :=
  { query := some qRootC6, mutation := none, subscription := none,
    resolvers := RTree.node [], middleware := some (permTab, permissionDenied) }

def stC6 : TState := { cache := [(200, qRootC6)], counter := 1 }

/-- Witness for C6: one addPermissions call yields a schema wrapped with the
middleware carrying that table and the fixed denial message. -/
theorem C6_witness :
    toGraphQL 3 200 201 202 none (applyOps newSchema opsC6) s0 =
      Except.ok (schC6, stC6) ∧
    schC6.middleware =
      (applyOps newSchema opsC6).shield.map (fun sh => (sh, permissionDenied)) ∧
    ∃ tbl, schC6.middleware = some (tbl, permissionDenied) := by
  have h : toGraphQL 3 200 201 202 none (applyOps newSchema opsC6) s0 =
      Except.ok (schC6, stC6) := rfl
  have hc := C6_shield_exactly_when_permissions opsC6 3 200 201 202 s0 stC6 schC6 h
  exact ⟨h, hc.1, hc.2.1.mp ⟨permTab, by simp [opsC6]⟩⟩

/-- Counterexample to claim C3: a registration map that is set but empty does
not have its root type omitted — addQueries with an empty mapping leaves the
queries map set to an empty object (truthy), and toGraphQL then builds an
empty Query root type instead of omitting it. -/
theorem C3_counterexample :
    (newSchema.addQueries []).queries = some [] ∧
    toGraphQL 3 100 101 102 none (newSchema.addQueries []) s0 =
      Except.ok ({ query := some (GType.objectT 0 .object nmQuery none none []),
                   mutation := none, subscription := none,
                   resolvers := RTree.node [], middleware := none },
                 { cache := [(100, GType.objectT 0 .object nmQuery none none [])],
                   counter := 1 }) :=
  ⟨rfl, rfl⟩

/-- Claim C3 as amended: toGraphQL omits a root type exactly when its
registration map is unset (never registered); a set map — even an empty
one — produces its root type.  In particular an assembler on which only
queries were registered produces a schema with a Query root type and no
Mutation or Subscription root types. -/
theorem C3_root_omission :
    (∀ (n qid mid sid : Nat) (a : TCombGraphQLSchema) (s s3 : TState)
       (sch : SchemaObj),
       toGraphQL n qid mid sid none a s = Except.ok (sch, s3) →
       (a.queries = none → sch.query = none) ∧
       (a.mutations = none → sch.mutation = none) ∧
       (a.subscriptions = none → sch.subscription = none) ∧
       (a.queries.isSome → sch.query.isSome) ∧
       (a.mutations.isSome → sch.mutation.isSome) ∧
       (a.subscriptions.isSome → sch.subscription.isSome)) ∧
    (∀ (ops : List AsmOp) (n qid mid sid : Nat) (s s3 : TState) (sch : SchemaObj),
       (∀ ms, AsmOp.addMutations ms ∉ ops) →
       (∃ qs, AsmOp.addQueries qs ∈ ops) →
       toGraphQL n qid mid sid none (applyOps newSchema ops) s =
         Except.ok (sch, s3) →
       sch.query.isSome ∧ sch.mutation = none ∧ sch.subscription = none) := by
  have part1 : ∀ (n qid mid sid : Nat) (a : TCombGraphQLSchema) (s s3 : TState)
      (sch : SchemaObj),
      toGraphQL n qid mid sid none a s = Except.ok (sch, s3) →
      (a.queries = none → sch.query = none) ∧
      (a.mutations = none → sch.mutation = none) ∧
      (a.subscriptions = none → sch.subscription = none) ∧
      (a.queries.isSome → sch.query.isSome) ∧
      (a.mutations.isSome → sch.mutation.isSome) ∧
      (a.subscriptions.isSome → sch.subscription.isSome) := by
    intro n qid mid sid a s s3 sch h
    obtain ⟨q, m, sub, s1, s2, h1, h2, h3, hsch⟩ :=
      toGraphQL_shape n qid mid sid a s s3 sch h
    subst hsch
    refine ⟨?_, ?_, ?_, ?_, ?_, ?_⟩
    · intro hq
      rw [hq] at h1
      cases h1
      rfl
    · intro hm
      rw [hm] at h2
      cases h2
      rfl
    · intro hs
      rw [hs] at h3
      cases h3
      rfl
    · intro hq
      obtain ⟨entries, he⟩ := Option.isSome_iff_exists.mp hq
      rw [he] at h1
      obtain ⟨g, hg⟩ := rootTransform_some n qid nmQuery entries s s1 q h1
      simp [hg]
    · intro hm
      obtain ⟨entries, he⟩ := Option.isSome_iff_exists.mp hm
      rw [he] at h2
      obtain ⟨g, hg⟩ := rootTransform_some n mid nmMutation entries s1 s2 m h2
      simp [hg]
    · intro hs
      obtain ⟨entries, he⟩ := Option.isSome_iff_exists.mp hs
      rw [he] at h3
      obtain ⟨g, hg⟩ := rootTransform_some n sid nmSubscription entries s2 s3 sub h3
      simp [hg]
  refine ⟨part1, ?_⟩
  intro ops n qid mid sid s s3 sch hnomut hq h
  have hp := part1 n qid mid sid (applyOps newSchema ops) s s3 sch h
  have hmu := applyOps_no_mutations ops newSchema hnomut
  have hqs := applyOps_queries_isSome ops newSchema (Or.inl hq)
  exact ⟨hp.2.2.2.1 hqs,
         hp.2.1 (hmu.1.trans rfl),
         hp.2.2.1 (hmu.2.trans rfl)⟩

/-- Witness for C3 as amended, on an assembler with one registered query. -/
theorem C3_witness :
    ∃ (sch : SchemaObj) (s3 : TState),
      toGraphQL 5 100 101 102 none
          (applyOps newSchema [AsmOp.addQueries [(fRand, declBeep)]]) s0 =
        Except.ok (sch, s3) ∧
      sch.query.isSome ∧ sch.mutation = none ∧ sch.subscription = none := by
  have h : toGraphQL 5 100 101 102 none
      (applyOps newSchema [AsmOp.addQueries [(fRand, declBeep)]]) s0 =
      Except.ok
        ({ query := some (GType.objectT 1 .object nmQuery none none
             [(fRand, GField.mk (GType.nonNull gBeep) JsVal.undefined none none)]),
           mutation := none, subscription := none,
           resolvers := RTree.node [], middleware := none },
         { cache := [(100, GType.objectT 1 .object nmQuery none none
             [(fRand, GField.mk (GType.nonNull gBeep) JsVal.undefined none none)]),
                     (1, gBeep)],
           counter := 2 }) := rfl
  refine ⟨_, _, h, ?_⟩
  have hc := (C3_root_omission.2 [AsmOp.addQueries [(fRand, declBeep)]]
    5 100 101 102 s0 _ _ ?_ ?_ h)
  · exact hc
  · intro ms hm
    simp at hm
  · exact ⟨[(fRand, declBeep)], by simp⟩

theorem typeMap_struct : typeMap "struct" = some (TypeMapEntry.builder BTag.struct) :=
  rfl

theorem foldl_addMut_sub_preserve (ms : List (String × Decl)) :
    ∀ (acc : TCombGraphQLSchema) (k : String), k ∉ ms.map Prod.fst →
      olookup (((ms.foldl TCombGraphQLSchema.addMutationEntry acc)).subscriptions.getD []) k =
        olookup (acc.subscriptions.getD []) k := by
  induction ms with
  | nil => intro acc k _; rfl
  | cons kv rest ih =>
    intro acc k h
    obtain ⟨k0, d0⟩ := kv
    simp only [List.map_cons, List.mem_cons] at h
    push_neg at h
    rw [List.foldl_cons, ih _ k h.2]
    cases hp : d0.getPublishType with
    | none => simp [TCombGraphQLSchema.addMutationEntry, hp]
    | some pt =>
      simp only [TCombGraphQLSchema.addMutationEntry, hp]
      exact olookup_setKey_other _ k k0 pt (Ne.symm h.1)

theorem foldl_addMut_sub_lookup (ms : List (String × Decl)) :
    ∀ (acc : TCombGraphQLSchema) (k : String) (d p : Decl),
      (k, d) ∈ ms → d.getPublishType = some p → (ms.map Prod.fst).Nodup →
      olookup (((ms.foldl TCombGraphQLSchema.addMutationEntry acc)).subscriptions.getD []) k =
        some p := by
  induction ms with
  | nil => intro acc k d p hm _ _; exact absurd hm (List.not_mem_nil _)
  | cons kv rest ih =>
    intro acc k d p hm hp hnd
    obtain ⟨k0, d0⟩ := kv
    simp only [List.map_cons, List.nodup_cons] at hnd
    cases hm with
    | head =>
      rw [List.foldl_cons, foldl_addMut_sub_preserve rest _ k hnd.1]
      simp only [TCombGraphQLSchema.addMutationEntry, hp]
      exact olookup_setKey_self _ k p
    | tail _ hm2 =>
      rw [List.foldl_cons]
      exact ih _ k d p hm2 hp hnd.2

theorem objectFields_mem (tr : Tr) (props : List (String × Decl)) :
    ∀ (s s1 : TState) (fs : List (String × GField)),
      objectFields tr props s = Except.ok (fs, s1) →
      ∀ (k : String) (pt : Decl), (k, pt) ∈ props →
      ∃ (gf : GField) (sa sb : TState), (k, gf) ∈ fs ∧
        tr pt false sa = Except.ok (gf.ftype, sb) ∧
        gf.fdefault = pt.getVal ∧ gf.fdesc = pt.getDesc := by
  induction props with
  | nil => intro s s1 fs _ k pt hmem; exact absurd hmem (List.not_mem_nil _)
  | cons kv rest ih =>
    intro s s1 fs h k pt hmem
    obtain ⟨k0, pt0⟩ := kv
    cases ht : tr pt0 false s with
    | error er =>
      rw [show objectFields tr ((k0, pt0) :: rest) s = Except.error er from by
            simp [objectFields, ht]] at h
      exact Except.noConfusion h
    | ok p1 =>
      obtain ⟨ty, sA⟩ := p1
      cases ha : argsMapOpt tr pt0.getArgs sA with
      | error er =>
        rw [show objectFields tr ((k0, pt0) :: rest) s = Except.error er from by
              simp [objectFields, ht, ha]] at h
        exact Except.noConfusion h
      | ok p2 =>
        obtain ⟨ar, sB⟩ := p2
        cases hr : objectFields tr rest sB with
        | error er =>
          rw [show objectFields tr ((k0, pt0) :: rest) s = Except.error er from by
                simp [objectFields, ht, ha, hr]] at h
          exact Except.noConfusion h
        | ok p3 =>
          obtain ⟨fs0, sC⟩ := p3
          rw [show objectFields tr ((k0, pt0) :: rest) s =
                Except.ok ((k0, GField.mk ty pt0.getVal pt0.getDesc ar) :: fs0, sC)
              from by simp [objectFields, ht, ha, hr]] at h
          cases h
          cases hmem with
          | head =>
            exact ⟨GField.mk ty pt.getVal pt.getDesc ar, s, sA,
                   List.mem_cons_self _ _, ht, rfl, rfl⟩
          | tail _ hmem2 =>
            obtain ⟨gf, sa, sb, hin, htr, hdv, hds⟩ := ih sB _ fs0 hr k pt hmem2
            exact ⟨gf, sa, sb, List.mem_cons_of_mem _ hin, htr, hdv, hds⟩

theorem struct_transform_shape (n rid : Nat) (nm : String)
    (props : List (String × Decl)) (s s1 : TState) (root : GType)
    (hname : typeMap nm = none)
    (hmiss : cacheLookup s.cache rid = none)
    (ht : transform (n + 1) (Decl.structD rid (some nm) props) true s =
      Except.ok (root, s1)) :
    ∃ (fs : List (String × GField)) (sB : TState),
      objectFields (transform n) props s = Except.ok (fs, sB) ∧
      root = GType.objectT sB.counter ObjKind.object nm none none fs ∧
      s1 = { cache := (rid, root) :: sB.cache, counter := sB.counter + 1 } := by
  cases hof : objectFields (transform n) props s with
  | error er =>
    rw [show transform (n + 1) (Decl.structD rid (some nm) props) true s =
          Except.error er from by
          simp [transform, resolveMapping, lookupTypeMap, Decl.metaName,
                Decl.metaKind, hname, typeMap_struct, struct, Decl.getInput,
                object, Decl.cacheId, hmiss, interfacesMap, Decl.getInterfaces,
                Decl.metaProps, hof]] at ht
    exact Except.noConfusion ht
  | ok p =>
    obtain ⟨fs, sB⟩ := p
    rw [show transform (n + 1) (Decl.structD rid (some nm) props) true s =
          Except.ok (GType.objectT sB.counter ObjKind.object nm none none fs,
            { cache := (rid, GType.objectT sB.counter ObjKind.object nm none none fs)
                :: sB.cache,
              counter := sB.counter + 1 }) from by
          simp [transform, resolveMapping, lookupTypeMap, Decl.metaName,
                Decl.metaKind, hname, typeMap_struct, struct, Decl.getInput,
                object, Decl.cacheId, hmiss, interfacesMap, Decl.getInterfaces,
                Decl.metaProps, hof, cacheInsert, Decl.displayName, jsOrStr,
                truthyStr, Decl.getTypeDesc, Decl.getDesc]] at ht
    cases ht
    exact ⟨fs, sB, rfl, rfl, rfl⟩

theorem rootTransform_ok (n rid : Nat) (nm : String)
    (entries : List (String × Decl)) (s s1 : TState) (r : Option GType)
    (h : rootTransform n rid nm (some entries) s = Except.ok (r, s1)) :
    ∃ g, r = some g ∧
      transform n (Decl.structD rid (some nm) entries) true s =
        Except.ok (g, s1) := by
  cases ht : transform n (Decl.structD rid (some nm) entries) true s with
  | error er =>
    rw [show rootTransform n rid nm (some entries) s = Except.error er from by
          simp [rootTransform, ht]] at h
    exact Except.noConfusion h
  | ok p =>
    obtain ⟨g, t⟩ := p
    rw [show rootTransform n rid nm (some entries) s = Except.ok (some g, t)
        from by simp [rootTransform, ht]] at h
    cases h
    exact ⟨g, rfl, rfl⟩

/-- Claim C4: addMutations registers, for every entry whose declaration
carries a linked publish type, that publish type under the same key in the
subscription set; transforming the synthetic Subscription struct afterwards
yields a Subscription root object with a field of that key whose schema type
is the transform of the publish type; and toGraphQL builds its subscription
root exactly as that transform, with no addQueries or explicit subscription
call involved. -/
theorem C4_publish_auto_subscription :
    (∀ (a : TCombGraphQLSchema) (ms : List (String × Decl)) (k : String)
       (d p : Decl),
       (k, d) ∈ ms → d.getPublishType = some p → (ms.map Prod.fst).Nodup →
       olookup ((a.addMutations ms).subscriptions.getD []) k = some p) ∧
    (∀ (n sid : Nat) (subs : List (String × Decl)) (s s1 : TState)
       (root : GType) (k : String) (p : Decl),
       cacheLookup s.cache sid = none → (k, p) ∈ subs →
       transform (n + 1) (Decl.structD sid (some nmSubscription) subs) true s =
         Except.ok (root, s1) →
       ∃ (fs : List (String × GField)) (rid2 : Nat),
         root = GType.objectT rid2 ObjKind.object nmSubscription none none fs ∧
         ∃ (gf : GField) (sa sb : TState), (k, gf) ∈ fs ∧
           transform n p false sa = Except.ok (gf.ftype, sb)) ∧
    (∀ (n qid mid sid : Nat) (a : TCombGraphQLSchema) (s s3 : TState)
       (sch : SchemaObj) (subs : List (String × Decl)),
       a.subscriptions = some subs →
       toGraphQL n qid mid sid none a s = Except.ok (sch, s3) →
       ∃ (root : GType) (s2 : TState),
         sch.subscription = some root ∧
         transform n (Decl.structD sid (some nmSubscription) subs) true s2 =
           Except.ok (root, s3)) := by
  refine ⟨?_, ?_, ?_⟩
  · intro a ms k d p hm hp hnd
    unfold TCombGraphQLSchema.addMutations
    exact foldl_addMut_sub_lookup ms _ k d p hm hp hnd
  · intro n sid subs s s1 root k p hmiss hmem ht
    obtain ⟨fs, sB, hof, hroot, _⟩ :=
      struct_transform_shape n sid nmSubscription subs s s1 root rfl hmiss ht
    obtain ⟨gf, sa, sb, hin, htr, _, _⟩ :=
      objectFields_mem (transform n) subs s sB fs hof k p hmem
    exact ⟨fs, sB.counter, hroot, gf, sa, sb, hin, htr⟩
  · intro n qid mid sid a s s3 sch subs hsubs h
    obtain ⟨q, m, sub, s1, s2, h1, h2, h3, hsch⟩ :=
      toGraphQL_shape n qid mid sid a s s3 sch h
    rw [hsubs] at h3
    obtain ⟨g, hg, htg⟩ :=
      rootTransform_ok n sid nmSubscription subs s2 s3 sub h3
    exact ⟨g, s2, by rw [hsch, hg], htg⟩

def nmMessage : String := "Message"

def kSend : String := "sendMessage"

/-- type('Message', null, { text: t.String }). -/
def declMsg : Decl := type (some nmMessage) none [(fText, tString)] 3 []

/-- fn({}, Beep, Message): a mutation declaration with linked publish type. -/
def fnSend : Decl := fn (FnArgs.mapping []) declBeep (some declMsg) none

def gMsg0 : GType :=
  .objectT 0 .object nmMessage none (some [])
    [(fText, .mk (.nonNull .scalarString) .undefined none none)]

def subRoot0 : GType :=
  .objectT 1 .object nmSubscription none none
    [(kSend, .mk (.nonNull gMsg0) .undefined none none)]

def sSub0 : TState := { cache := [(102, subRoot0), (3, gMsg0)], counter := 2 }

def asmSub : TCombGraphQLSchema :=
  { mutations := none, queries := none, resolvers := RTree.node [],
    subscriptions := some [(kSend, declMsg)], shield := none }

def schSub : SchemaObj :=
  { query := none, mutation := none, subscription := some subRoot0,
    resolvers := RTree.node [], middleware := none }

/-- Witness for C4: registering fnSend places its publish type under the same
key in the subscription set; transforming the Subscription struct yields a
root with a sendMessage field of the publish type's transform; and toGraphQL
hands exactly that root over. -/
theorem C4_witness :
    olookup ((newSchema.addMutations [(kSend, fnSend)]).subscriptions.getD [])
        kSend = some declMsg ∧
    (∃ (fs : List (String × GField)) (rid2 : Nat),
       subRoot0 = GType.objectT rid2 ObjKind.object nmSubscription none none fs ∧
       ∃ (gf : GField) (sa sb : TState), (kSend, gf) ∈ fs ∧
         transform 2 declMsg false sa = Except.ok (gf.ftype, sb)) ∧
    (∃ (root : GType) (s2 : TState),
       schSub.subscription = some root ∧
       transform 3 (Decl.structD 102 (some nmSubscription) [(kSend, declMsg)])
           true s2 = Except.ok (root, sSub0)) := by
  refine ⟨?_, ?_, ?_⟩
  · exact C4_publish_auto_subscription.1 newSchema [(kSend, fnSend)] kSend
      fnSend declMsg (List.mem_cons_self _ _) rfl (by simp)
  · exact C4_publish_auto_subscription.2.1 2 102 [(kSend, declMsg)] s0 sSub0
      subRoot0 kSend declMsg rfl (List.mem_cons_self _ _) rfl
  · exact C4_publish_auto_subscription.2.2 3 100 101 102 asmSub s0 sSub0 schSub
      [(kSend, declMsg)] rfl rfl

/-! Claim C5: deep-merge of resolver and permission tables. -/

theorem deepExtend_leaf_hit (t : RTree) (ty f : String) (v : Nat) :
    rlookup (deepExtend t (RTree.node [(ty, RTree.node [(f, RTree.leaf v)])]))
        ty f = some (RTree.leaf v) := by
  cases t with
  | leaf v0 => simp [deepExtend, rlookup, olookup]
  | node tcs =>
    cases holt : olookup tcs ty with
    | none =>
      simp [deepExtend, deepExtendList, holt, rlookup, olookup_setKey_self,
            olookup]
    | some val =>
      cases val with
      | leaf v1 =>
        simp [deepExtend, deepExtendList, holt, rlookup, olookup_setKey_self,
              olookup]
      | node tc =>
        simp [deepExtend, deepExtendList, holt, rlookup, olookup_setKey_self,
              olookup]

theorem deepExtend_other_field (t : RTree) (ty f f3 : String) (v : Nat)
    (h : f3 ≠ f) :
    rlookup (deepExtend t (RTree.node [(ty, RTree.node [(f, RTree.leaf v)])]))
        ty f3 = rlookup t ty f3 := by
  have hfs : f ≠ f3 := Ne.symm h
  cases t with
  | leaf v0 => simp [deepExtend, rlookup, olookup, hfs]
  | node tcs =>
    cases holt : olookup tcs ty with
    | none =>
      simp [deepExtend, deepExtendList, holt, rlookup, olookup_setKey_self,
            olookup, hfs]
    | some val =>
      cases val with
      | leaf v1 =>
        simp [deepExtend, deepExtendList, holt, rlookup, olookup_setKey_self,
              olookup, hfs]
      | node tc =>
        simp [deepExtend, deepExtendList, holt, rlookup, olookup_setKey_self,
              olookup, hfs, olookup_setKey_other tc f3 f (RTree.leaf v) hfs]

theorem deepExtend_other_type (t : RTree) (ty ty2 f : String) (v : Nat)
    (h : ty2 ≠ ty) :
    tlookup (deepExtend t (RTree.node [(ty, RTree.node [(f, RTree.leaf v)])]))
        ty2 = tlookup t ty2 := by
  have hts : ty ≠ ty2 := Ne.symm h
  cases t with
  | leaf v0 => simp [deepExtend, tlookup, olookup, hts]
  | node tcs =>
    cases holt : olookup tcs ty with
    | none =>
      simp [deepExtend, deepExtendList, holt, tlookup,
            olookup_setKey_other tcs ty2 ty _ hts]
    | some val =>
      cases val with
      | leaf v1 =>
        simp [deepExtend, deepExtendList, holt, tlookup,
              olookup_setKey_other tcs ty2 ty _ hts]
      | node tc =>
        simp [deepExtend, deepExtendList, holt, tlookup,
              olookup_setKey_other tcs ty2 ty _ hts]

/-- Permission-table lookup through the shield state. -/
def plookup (a : TCombGraphQLSchema) (ty f : String) : Option RTree :=
  match a.shield with
  | none => none
  | some t => rlookup t ty f

def ptlookup (a : TCombGraphQLSchema) (ty : String) : Option RTree :=
  match a.shield with
  | none => none
  | some t => tlookup t ty

/-- Claim C5: addResolvers and addPermissions deep-merge into the nested
type-name/field-name table: two calls targeting different fields of the same
type both take effect with siblings preserved at every level, and two calls
targeting the same leaf path leave the later leaf value, affecting that path
only. -/
theorem C5_deep_merge_registration :
    (∀ (a : TCombGraphQLSchema) (ty f1 f2 : String) (v1 v2 : Nat), f1 ≠ f2 →
      rlookup ((TCombGraphQLSchema.addResolvers
          (TCombGraphQLSchema.addResolvers a
            (RTree.node [(ty, RTree.node [(f1, RTree.leaf v1)])]))
          (RTree.node [(ty, RTree.node [(f2, RTree.leaf v2)])])).resolvers)
          ty f1 = some (RTree.leaf v1) ∧
      rlookup ((TCombGraphQLSchema.addResolvers
          (TCombGraphQLSchema.addResolvers a
            (RTree.node [(ty, RTree.node [(f1, RTree.leaf v1)])]))
          (RTree.node [(ty, RTree.node [(f2, RTree.leaf v2)])])).resolvers)
          ty f2 = some (RTree.leaf v2) ∧
      (∀ f3, f3 ≠ f1 → f3 ≠ f2 →
        rlookup ((TCombGraphQLSchema.addResolvers
            (TCombGraphQLSchema.addResolvers a
              (RTree.node [(ty, RTree.node [(f1, RTree.leaf v1)])]))
            (RTree.node [(ty, RTree.node [(f2, RTree.leaf v2)])])).resolvers)
            ty f3 = rlookup a.resolvers ty f3) ∧
      (∀ ty2, ty2 ≠ ty →
        tlookup ((TCombGraphQLSchema.addResolvers
            (TCombGraphQLSchema.addResolvers a
              (RTree.node [(ty, RTree.node [(f1, RTree.leaf v1)])]))
            (RTree.node [(ty, RTree.node [(f2, RTree.leaf v2)])])).resolvers)
            ty2 = tlookup a.resolvers ty2)) ∧
    (∀ (a : TCombGraphQLSchema) (ty f : String) (v1 v2 : Nat),
      rlookup ((TCombGraphQLSchema.addResolvers
          (TCombGraphQLSchema.addResolvers a
            (RTree.node [(ty, RTree.node [(f, RTree.leaf v1)])]))
          (RTree.node [(ty, RTree.node [(f, RTree.leaf v2)])])).resolvers)
          ty f = some (RTree.leaf v2) ∧
      (∀ f3, f3 ≠ f →
        rlookup ((TCombGraphQLSchema.addResolvers
            (TCombGraphQLSchema.addResolvers a
              (RTree.node [(ty, RTree.node [(f, RTree.leaf v1)])]))
            (RTree.node [(ty, RTree.node [(f, RTree.leaf v2)])])).resolvers)
            ty f3 = rlookup a.resolvers ty f3) ∧
      (∀ ty2, ty2 ≠ ty →
        tlookup ((TCombGraphQLSchema.addResolvers
            (TCombGraphQLSchema.addResolvers a
              (RTree.node [(ty, RTree.node [(f, RTree.leaf v1)])]))
            (RTree.node [(ty, RTree.node [(f, RTree.leaf v2)])])).resolvers)
            ty2 = tlookup a.resolvers ty2)) ∧
    (∀ (a : TCombGraphQLSchema) (ty f1 f2 : String) (v1 v2 : Nat), f1 ≠ f2 →
      plookup (TCombGraphQLSchema.addPermissions
          (TCombGraphQLSchema.addPermissions a
            (RTree.node [(ty, RTree.node [(f1, RTree.leaf v1)])]))
          (RTree.node [(ty, RTree.node [(f2, RTree.leaf v2)])]))
          ty f1 = some (RTree.leaf v1) ∧
      plookup (TCombGraphQLSchema.addPermissions
          (TCombGraphQLSchema.addPermissions a
            (RTree.node [(ty, RTree.node [(f1, RTree.leaf v1)])]))
          (RTree.node [(ty, RTree.node [(f2, RTree.leaf v2)])]))
          ty f2 = some (RTree.leaf v2) ∧
      (∀ f3, f3 ≠ f1 → f3 ≠ f2 →
        plookup (TCombGraphQLSchema.addPermissions
            (TCombGraphQLSchema.addPermissions a
              (RTree.node [(ty, RTree.node [(f1, RTree.leaf v1)])]))
            (RTree.node [(ty, RTree.node [(f2, RTree.leaf v2)])]))
            ty f3 = plookup a ty f3) ∧
      (∀ ty2, ty2 ≠ ty →
        ptlookup (TCombGraphQLSchema.addPermissions
            (TCombGraphQLSchema.addPermissions a
              (RTree.node [(ty, RTree.node [(f1, RTree.leaf v1)])]))
            (RTree.node [(ty, RTree.node [(f2, RTree.leaf v2)])]))
            ty2 = ptlookup a ty2)) ∧
    (∀ (a : TCombGraphQLSchema) (ty f : String) (v1 v2 : Nat),
      plookup (TCombGraphQLSchema.addPermissions
          (TCombGraphQLSchema.addPermissions a
            (RTree.node [(ty, RTree.node [(f, RTree.leaf v1)])]))
          (RTree.node [(ty, RTree.node [(f, RTree.leaf v2)])]))
          ty f = some (RTree.leaf v2)) := by
  have hres2 : ∀ (a : TCombGraphQLSchema) (x y : RTree),
      (TCombGraphQLSchema.addResolvers (TCombGraphQLSchema.addResolvers a x) y).resolvers =
        deepExtend (deepExtend a.resolvers x) y := fun _ _ _ => rfl
  have singleNone : ∀ (ty f f3 : String) (v : Nat), f3 ≠ f →
      rlookup (RTree.node [(ty, RTree.node [(f, RTree.leaf v)])]) ty f3 = none := by
    intro ty f f3 v h
    simp [rlookup, olookup, Ne.symm h]
  have singleTyNone : ∀ (ty ty2 f : String) (v : Nat), ty2 ≠ ty →
      tlookup (RTree.node [(ty, RTree.node [(f, RTree.leaf v)])]) ty2 = none := by
    intro ty ty2 f v h
    simp [tlookup, olookup, Ne.symm h]
  refine ⟨?_, ?_, ?_, ?_⟩
  · intro a ty f1 f2 v1 v2 h
    rw [hres2]
    refine ⟨?_, ?_, ?_, ?_⟩
    · rw [deepExtend_other_field _ ty f2 f1 v2 h, deepExtend_leaf_hit]
    · rw [deepExtend_leaf_hit]
    · intro f3 h1 h2
      rw [deepExtend_other_field _ ty f2 f3 v2 h2,
          deepExtend_other_field _ ty f1 f3 v1 h1]
    · intro ty2 h2
      rw [deepExtend_other_type _ ty ty2 f2 v2 h2,
          deepExtend_other_type _ ty ty2 f1 v1 h2]
  · intro a ty f v1 v2
    rw [hres2]
    refine ⟨?_, ?_, ?_⟩
    · rw [deepExtend_leaf_hit]
    · intro f3 h3
      rw [deepExtend_other_field _ ty f f3 v2 h3,
          deepExtend_other_field _ ty f f3 v1 h3]
    · intro ty2 h2
      rw [deepExtend_other_type _ ty ty2 f v2 h2,
          deepExtend_other_type _ ty ty2 f v1 h2]
  · intro a ty f1 f2 v1 v2 h
    cases hsh : a.shield with
    | none =>
      refine ⟨?_, ?_, ?_, ?_⟩
      · simp only [plookup, TCombGraphQLSchema.addPermissions, hsh]
        rw [deepExtend_other_field _ ty f2 f1 v2 h]
        simp [rlookup, olookup]
      · simp only [plookup, TCombGraphQLSchema.addPermissions, hsh]
        rw [deepExtend_leaf_hit]
      · intro f3 h1 h2
        simp only [plookup, TCombGraphQLSchema.addPermissions, hsh]
        rw [deepExtend_other_field _ ty f2 f3 v2 h2]
        exact singleNone ty f1 f3 v1 h1
      · intro ty2 h2
        simp only [ptlookup, TCombGraphQLSchema.addPermissions, hsh]
        rw [deepExtend_other_type _ ty ty2 f2 v2 h2]
        exact singleTyNone ty ty2 f1 v1 h2
    | some sh =>
      refine ⟨?_, ?_, ?_, ?_⟩
      · simp only [plookup, TCombGraphQLSchema.addPermissions, hsh]
        rw [deepExtend_other_field _ ty f2 f1 v2 h, deepExtend_leaf_hit]
      · simp only [plookup, TCombGraphQLSchema.addPermissions, hsh]
        rw [deepExtend_leaf_hit]
      · intro f3 h1 h2
        simp only [plookup, TCombGraphQLSchema.addPermissions, hsh]
        rw [deepExtend_other_field _ ty f2 f3 v2 h2,
            deepExtend_other_field _ ty f1 f3 v1 h1]
      · intro ty2 h2
        simp only [ptlookup, TCombGraphQLSchema.addPermissions, hsh]
        rw [deepExtend_other_type _ ty ty2 f2 v2 h2,
            deepExtend_other_type _ ty ty2 f1 v1 h2]
  · intro a ty f v1 v2
    cases hsh : a.shield with
    | none =>
      simp only [plookup, TCombGraphQLSchema.addPermissions, hsh]
      rw [deepExtend_leaf_hit]
    | some sh =>
      simp only [plookup, TCombGraphQLSchema.addPermissions, hsh]
      rw [deepExtend_leaf_hit]

def fAlpha : String := "alpha"

def fBeta : String := "beta"

/-- Witness for C5: two resolver registrations on different fields of Query
both land, a same-path pair leaves the later leaf, and the same holds for
permissions. -/
theorem C5_witness :
    rlookup ((TCombGraphQLSchema.addResolvers
        (TCombGraphQLSchema.addResolvers newSchema
          (RTree.node [(nmQuery, RTree.node [(fAlpha, RTree.leaf 1)])]))
        (RTree.node [(nmQuery, RTree.node [(fBeta, RTree.leaf 2)])])).resolvers)
        nmQuery fAlpha = some (RTree.leaf 1) ∧
    rlookup ((TCombGraphQLSchema.addResolvers
        (TCombGraphQLSchema.addResolvers newSchema
          (RTree.node [(nmQuery, RTree.node [(fAlpha, RTree.leaf 1)])]))
        (RTree.node [(nmQuery, RTree.node [(fBeta, RTree.leaf 2)])])).resolvers)
        nmQuery fBeta = some (RTree.leaf 2) ∧
    rlookup ((TCombGraphQLSchema.addResolvers
        (TCombGraphQLSchema.addResolvers newSchema
          (RTree.node [(nmQuery, RTree.node [(fAlpha, RTree.leaf 1)])]))
        (RTree.node [(nmQuery, RTree.node [(fAlpha, RTree.leaf 2)])])).resolvers)
        nmQuery fAlpha = some (RTree.leaf 2) ∧
    plookup (TCombGraphQLSchema.addPermissions
        (TCombGraphQLSchema.addPermissions newSchema
          (RTree.node [(nmQuery, RTree.node [(fAlpha, RTree.leaf 1)])]))
        (RTree.node [(nmQuery, RTree.node [(fBeta, RTree.leaf 2)])]))
        nmQuery fAlpha = some (RTree.leaf 1) ∧
    plookup (TCombGraphQLSchema.addPermissions
        (TCombGraphQLSchema.addPermissions newSchema
          (RTree.node [(nmQuery, RTree.node [(fAlpha, RTree.leaf 1)])]))
        (RTree.node [(nmQuery, RTree.node [(fAlpha, RTree.leaf 2)])]))
        nmQuery fAlpha = some (RTree.leaf 2) :=
  ⟨(C5_deep_merge_registration.1 newSchema nmQuery fAlpha fBeta 1 2
      (by decide)).1,
   (C5_deep_merge_registration.1 newSchema nmQuery fAlpha fBeta 1 2
      (by decide)).2.1,
   (C5_deep_merge_registration.2.1 newSchema nmQuery fAlpha 1 2).1,
   (C5_deep_merge_registration.2.2.1 newSchema nmQuery fAlpha fBeta 1 2
      (by decide)).1,
   C5_deep_merge_registration.2.2.2 newSchema nmQuery fAlpha 1 2⟩
